import Mathlib

/-!
Verification of the Stark print server (src/server.py): a shallow embedding
of its job pipeline — upload validation, the FIFO job queue, the worker loop
with conversion and print stages, and the bounded in-memory history ledger.

External effects (subprocess runs, filesystem operations, clock reads) are
modelled by explicit oracle parameters; every function mirrors the control
flow of the corresponding Python function in src/server.py.
-/

set_option maxRecDepth 8000

namespace Stark

/-- `ALLOWED_EXTENSIONS` from server.py (a Python set; listed here in the
source's literal order). -/
def ALLOWED_EXTENSIONS : List String := ["pdf", "docx", "pptx", "xlsx"]

/-- `MAX_FILE_SIZE_MB` from server.py. -/
def MAX_FILE_SIZE_MB : Nat := 50

/-- `app.config['MAX_CONTENT_LENGTH'] = MAX_FILE_SIZE_MB * 1024 * 1024`. -/
def MAX_CONTENT_LENGTH : Nat := MAX_FILE_SIZE_MB * 1024 * 1024

/-- `WORKER_COUNT` from server.py: one worker thread (strict FIFO). -/
def WORKER_COUNT : Nat := 1

/-- `UPLOAD_FOLDER` from server.py. -/
def UPLOAD_FOLDER : String := "/var/lib/stark/uploads"

/-- Split a character list at its LAST occurrence of `sep`, returning the
parts before and after it, or `none` when `sep` does not occur. -/
def splitLastAux (sep : Char) : List Char → Option (List Char × List Char)
  | [] => none
  | c :: cs =>
    match splitLastAux sep cs with
    | some (l, r) => some (c :: l, r)
    | none => if c = sep then some ([], cs) else none

/-- Python's `s.rsplit(sep, 1)`: a one- or two-element list, split at the
last occurrence of `sep` (used with `"."` at server.py lines 96 and 172). -/
def rsplit1 (sep : Char) (s : String) : List String :=
  match splitLastAux sep s.toList with
  | some (l, r) => [String.mk l, String.mk r]
  | none => [s]

/-- Python's `str.lower()` on ASCII filenames (`Char.toLower` per
character), written over the character list so the kernel can evaluate it. -/
def str_lower (s : String) : String := String.mk (s.toList.map Char.toLower)

/-- `allowed_file` (server.py lines 95-97): the name splits into exactly two
parts around its last dot and the lower-cased extension is allowed. -/
def allowed_file (filename : String) : Bool :=
  match rsplit1 '.' filename with
  | [_, e] => ALLOWED_EXTENSIONS.contains (str_lower e)
  | _ => false

/-- `werkzeug.utils.secure_filename`: an external library sanitizer, outside
this repository; modelled as the identity renaming since no claim here
depends on the sanitization itself, only on the name flowing through. -/
def secure_filename (s : String) : String := s

/-- A history ledger entry: the dict literals appended by `record_history`
callers carry these fields (absent keys modelled as `none`). -/
structure HistoryEvent where
  timestamp : String
  job_id : String
  filename : String
  status : String
  client : Option String := none
  error : Option String := none
  printer_response : Option String := none
deriving Repr, DecidableEq

/-- `record_history` (server.py lines 139-144): append the entry, then, when
the list holds more than 200 entries, delete the oldest (`del job_history[0]`). -/
def record_history (hist : List HistoryEvent) (entry : HistoryEvent) : List HistoryEvent :=
  if (hist ++ [entry]).length > 200 then (hist ++ [entry]).drop 1 else hist ++ [entry]

/-- The ledger produced by a sequence of `record_history` appends starting
from the empty `job_history`. -/
def ledgerOf (es : List HistoryEvent) : List HistoryEvent :=
  es.foldl record_history []

/-- A job dict as built by `upload` (server.py lines 272-278). -/
structure Job where
  id : String
  filename : String
  filepath : String
  client : String
  received_at : String
deriving Repr, DecidableEq

/-- `job_queue.put(job)`: FIFO append at the tail (`queue.Queue` semantics). -/
def job_queue_put (q : List Job) (j : Job) : List Job := q ++ [j]

/-- `job_queue.get()`: FIFO removal from the head (`queue.Queue` semantics);
`none` when the queue is empty (the Python call would block). -/
def job_queue_get : List Job → Option (Job × List Job)
  | [] => none
  | j :: rest => some (j, rest)

/-- The order in which the single (`WORKER_COUNT = 1`) worker dequeues the
jobs of a queue: repeated `job_queue.get()` until empty. -/
def worker_drain : List Job → List Job
  | [] => []
  | j :: rest => j :: worker_drain rest

/-- Enqueuing each job of `js` in order via `job_queue_put`. -/
lemma foldl_job_queue_put (js : List Job) (q : List Job) :
    js.foldl job_queue_put q = q ++ js := by
  induction js generalizing q with
  | nil => simp
  | cons j rest ih =>
    simp only [List.foldl_cons, ih, job_queue_put]
    simp

lemma worker_drain_eq (q : List Job) : worker_drain q = q := by
  induction q with
  | nil => rfl
  | cons j rest ih => simp [worker_drain, ih]

/-- Claim C2: With `WORKER_COUNT = 1`, for every sequence of enqueues the
single worker dequeues the jobs in exactly the order they were enqueued:
no reordering, no priority, no deduplication. -/
theorem fifo_processing_order :
    WORKER_COUNT = 1 ∧
    ∀ js : List Job, worker_drain (js.foldl job_queue_put []) = js := by
  refine ⟨rfl, fun js => ?_⟩
  rw [foldl_job_queue_put, List.nil_append, worker_drain_eq]

lemma record_history_length_le (hist : List HistoryEvent) (e : HistoryEvent)
    (h : hist.length ≤ 200) : (record_history hist e).length ≤ 200 := by
  rw [record_history]
  by_cases hgt : (hist ++ [e]).length > 200
  · rw [if_pos hgt]
    simp only [List.length_drop, List.length_append, List.length_singleton]
    omega
  · rw [if_neg hgt]
    simp only [List.length_append, List.length_singleton] at hgt ⊢
    omega

lemma foldl_record_history (es : List HistoryEvent) (l : List HistoryEvent)
    (h : l.length ≤ 200) :
    es.foldl record_history l = (l ++ es).drop ((l ++ es).length - 200) := by
  induction es generalizing l with
  | nil =>
    simp [Nat.sub_eq_zero_of_le h]
  | cons e rest ih =>
    have hlen : (record_history l e).length ≤ 200 := record_history_length_le l e h
    rw [List.foldl_cons, ih (record_history l e) hlen]
    by_cases hgt : (l ++ [e]).length > 200
    · -- overflow: l.length = 200, the oldest entry is dropped
      have hre : record_history l e = (l ++ [e]).drop 1 := by
        rw [record_history, if_pos hgt]
      rw [hre]
      have h200 : l.length = 200 := by
        simp only [List.length_append, List.length_singleton] at hgt h
        omega
      have e1 : (l ++ [e]).drop 1 ++ rest = ((l ++ [e]) ++ rest).drop 1 :=
        (List.drop_append_of_le_length (by simp)).symm
      rw [e1, List.drop_drop]
      have e2 : (l ++ [e]) ++ rest = l ++ e :: rest := by simp
      rw [e2]
      congr 1
      simp only [List.length_drop, List.length_append, List.length_singleton,
        List.length_cons, h200]
      omega
    · -- no overflow: plain append
      have hre : record_history l e = l ++ [e] := by
        rw [record_history, if_neg hgt]
      rw [hre]
      have e2 : (l ++ [e]) ++ rest = l ++ e :: rest := by simp
      rw [e2]

/-- Claim C6: The ledger built by any sequence of appends equals the suffix of
the 200 most recently appended events, in insertion order: it never exceeds
200 entries, and when the bound is exceeded the oldest entry is the one
evicted. -/
theorem ledger_bounded_fifo_eviction (es : List HistoryEvent) :
    ledgerOf es = es.drop (es.length - 200) := by
  unfold ledgerOf
  have h := foldl_record_history es [] (by simp)
  simpa using h

/-- Outcome of one external `subprocess.run` call, supplied as an oracle:
the process completed with an exit code and output streams, the call hit
its timeout (`subprocess.TimeoutExpired`, with the exception's text), or
some other exception was raised (with its text). -/
inductive ProcResult where
  | completed (returncode : Int) (stdout stderr : String)
  | timedOut (msg : String)
  | raised (msg : String)
deriving Repr, DecidableEq

/-- Python's `a or b` on two strings (falsy iff empty), as used in
`err or out` at server.py lines 121 and 136. -/
def pyOr (a b : String) : String := if a = "" then b else a

/-- `run_subprocess` (server.py lines 99-107): returns
`(returncode, stdout, stderr)`; a timeout becomes
`(-1, "", "Timeout expired: " + str(e))`, any other exception
`(-1, "", str(e))`. -/
def run_subprocess (res : ProcResult) : Int × String × String :=
  match res with
  | .completed code out err => (code, out, err)
  | .timedOut m => (-1, "", "Timeout expired: " ++ m)
  | .raised m => (-1, "", m)

/-- `os.path.basename`: the part after the last slash. -/
def basename (p : String) : String :=
  match rsplit1 '/' p with
  | [_, b] => b
  | _ => p

/-- `os.path.splitext(...)[0]` on a basename: the part before the last dot
(the whole name when there is no dot). -/
def splitextRoot (p : String) : String :=
  match rsplit1 '.' p with
  | [a, _] => a
  | _ => p

/-- `convert_to_pdf` (server.py lines 109-126): run the converter
(its behaviour given by the `conv` oracle); on non-zero exit raise
`LibreOffice failed: {err or out}`; otherwise the expected output is
`out_dir/base.pdf`, and if it does not exist (oracle `pdfExists`) raise
`Conversion did not produce PDF: expected {pdf_path}`; on success return
the produced path. Raising is modelled as `Except.error` with the
exception's text. -/
def convert_to_pdf (conv : ProcResult) (pdfExists : Bool)
    (input_path out_dir : String) : Except String String :=
  match run_subprocess conv with
  | (code, out, err) =>
    if code ≠ 0 then .error ("LibreOffice failed: " ++ pyOr err out)
    else
      let base := splitextRoot (basename input_path)
      let pdf_path := out_dir ++ "/" ++ base ++ ".pdf"
      if pdfExists then .ok pdf_path
      else .error ("Conversion did not produce PDF: expected " ++ pdf_path)

/-- `print_pdf` (server.py lines 128-137): run `lp` (behaviour given by the
oracle); non-zero exit yields `(False, err or out)`, success yields
`(True, out.strip())`. -/
def print_pdf (pdf_path : String) (res : ProcResult) : Bool × String :=
  match pdf_path, run_subprocess res with
  | _, (code, out, err) =>
    if code ≠ 0 then (false, pyOr err out)
    else (true, out.trim)

/-- Environment oracle for one iteration of `worker_loop` processing one
job: the scratch directory chosen by `tempfile.TemporaryDirectory`, whether
`shutil.copy` of the input succeeds, the converter subprocess behaviour,
whether the converted PDF exists afterwards, the `lp` subprocess behaviour,
and the clock reading used for event timestamps. -/
structure WorkerEnv where
  tmpdir : String
  copyOk : Bool
  convResult : ProcResult
  convPdfExists : Bool
  printResult : ProcResult
  now : String
deriving Repr, DecidableEq

/-- One observable primitive action of the worker while processing a job. -/
inductive WAction where
  | recordEvent (e : HistoryEvent)
  | copyInput
  | invokeConverter (input_path out_dir : String)
  | invokePrint (pdf_path : String)
  | removeScratchDir
  | removeUpload (path : String)
deriving Repr, DecidableEq

/-- The `processing` entry recorded at server.py lines 158-164. -/
def processingEvent (now : String) (j : Job) : HistoryEvent :=
  { timestamp := now, job_id := j.id, filename := j.filename,
    status := "processing", client := some j.client }

/-- The `conversion_failed` entry recorded at server.py lines 181-187. -/
def conversionFailedEvent (now : String) (j : Job) (msg : String) : HistoryEvent :=
  { timestamp := now, job_id := j.id, filename := j.filename,
    status := "conversion_failed", error := some msg }

/-- The `printed` entry recorded at server.py lines 194-200. -/
def printedEvent (now : String) (j : Job) (msg : String) : HistoryEvent :=
  { timestamp := now, job_id := j.id, filename := j.filename,
    status := "printed", printer_response := some msg }

/-- The `print_failed` entry recorded at server.py lines 203-209. -/
def printFailedEvent (now : String) (j : Job) (msg : String) : HistoryEvent :=
  { timestamp := now, job_id := j.id, filename := j.filename,
    status := "print_failed", error := some msg }

/-- The print step of the worker body (server.py lines 190-209): invoke
`print_pdf` and record `printed` or `print_failed`. -/
def worker_print_part (env : WorkerEnv) (job : Job) (pdf_path : String) : List WAction :=
  WAction.invokePrint pdf_path ::
    (match print_pdf pdf_path env.printResult with
     | (true, msg) => [WAction.recordEvent (printedEvent env.now job msg)]
     | (false, msg) => [WAction.recordEvent (printFailedEvent env.now job msg)])

/-- The body of the `with tempfile.TemporaryDirectory(...)` block of
`worker_loop` (server.py lines 167-209), as the trace of actions it
performs. A raised exception ends the trace early: `shutil.copy` failing
(oracle `copyOk = false`) and the `IndexError` from
`job['filename'].rsplit(".", 1)[1]` on a dot-less name are the unexpected
faults, caught only by the worker-level `except` outside this block; a
conversion failure is caught at lines 179-188, records
`conversion_failed` and `continue`s past the print step. -/
def worker_try_inner (env : WorkerEnv) (job : Job) : List WAction :=
  WAction.copyInput ::
    (if env.copyOk then
      match rsplit1 '.' job.filename with
      | [_, e] =>
        if str_lower e = "pdf" then
          worker_print_part env job (env.tmpdir ++ "/" ++ secure_filename job.filename)
        else
          WAction.invokeConverter (env.tmpdir ++ "/" ++ secure_filename job.filename) env.tmpdir ::
            (match convert_to_pdf env.convResult env.convPdfExists
                (env.tmpdir ++ "/" ++ secure_filename job.filename) env.tmpdir with
             | .error msg => [WAction.recordEvent (conversionFailedEvent env.now job msg)]
             | .ok pdf_path => worker_print_part env job pdf_path)
      | _ => []
    else [])

/-- One full per-job iteration of `worker_loop` (server.py lines 156-219):
record `processing`, run the `with` block (whose scratch directory is
removed when the block exits, on every path, including exception
propagation and `continue`), and then the `finally` clause, which always
attempts `os.remove(job['filepath'])` exactly once. -/
def worker_process_job (env : WorkerEnv) (job : Job) : List WAction :=
  WAction.recordEvent (processingEvent env.now job) ::
    worker_try_inner env job ++ [WAction.removeScratchDir, WAction.removeUpload job.filepath]

/-- The history entries a trace records, in order. -/
def eventsOf (tr : List WAction) : List HistoryEvent :=
  tr.filterMap fun a =>
    match a with
    | .recordEvent e => some e
    | _ => none

/-- The three terminal statuses of a job. -/
def terminalStatuses : List String := ["printed", "print_failed", "conversion_failed"]

/-- Is this action the removal of the uploaded file at path `p`? -/
def isRemoveUploadOf (p : String) : WAction → Bool
  | .removeUpload q => q == p
  | _ => false

/-- Is this action a converter invocation? -/
def isInvokeConverter : WAction → Bool
  | .invokeConverter _ _ => true
  | _ => false

/-- Is this action a print-dispatch invocation? -/
def isInvokePrint : WAction → Bool
  | .invokePrint _ => true
  | _ => false

@[simp] lemma isRemoveUploadOf_recordEvent (p : String) (e : HistoryEvent) :
    isRemoveUploadOf p (WAction.recordEvent e) = false := rfl

@[simp] lemma isRemoveUploadOf_copyInput (p : String) :
    isRemoveUploadOf p WAction.copyInput = false := rfl

@[simp] lemma isRemoveUploadOf_invokeConverter (p a b : String) :
    isRemoveUploadOf p (WAction.invokeConverter a b) = false := rfl

@[simp] lemma isRemoveUploadOf_invokePrint (p q : String) :
    isRemoveUploadOf p (WAction.invokePrint q) = false := rfl

@[simp] lemma isRemoveUploadOf_removeScratchDir (p : String) :
    isRemoveUploadOf p WAction.removeScratchDir = false := rfl

@[simp] lemma isRemoveUploadOf_removeUpload (p q : String) :
    isRemoveUploadOf p (WAction.removeUpload q) = (q == p) := rfl

lemma worker_print_part_no_removeUpload (env : WorkerEnv) (job : Job)
    (pdf_path p : String) :
    ∀ x ∈ worker_print_part env job pdf_path, isRemoveUploadOf p x = false := by
  unfold worker_print_part
  cases hp : print_pdf pdf_path env.printResult with
  | mk ok msg => cases ok <;> simp

lemma worker_try_inner_no_removeUpload (env : WorkerEnv) (job : Job) (p : String) :
    ∀ x ∈ worker_try_inner env job, isRemoveUploadOf p x = false := by
  unfold worker_try_inner
  cases hc : env.copyOk
  · simp
  · rw [if_pos rfl]
    rcases hs : rsplit1 '.' job.filename with _ | ⟨a, _ | ⟨b, _ | ⟨c, rest⟩⟩⟩ <;>
      simp only [List.forall_mem_cons] <;> try simp
    -- remaining case: the filename splits as [a, b]
    by_cases he : str_lower b = "pdf"
    · rw [if_pos he]
      exact worker_print_part_no_removeUpload env job _ p
    · rw [if_neg he]
      rcases hcv : convert_to_pdf env.convResult env.convPdfExists
          (env.tmpdir ++ "/" ++ secure_filename job.filename) env.tmpdir with m | q <;>
        simp only [List.forall_mem_cons]
      · simp
      · exact ⟨rfl, worker_print_part_no_removeUpload env job _ p⟩

/-- Claim C3: For every environment (hence on every execution path: successful
print, conversion failure, print failure, and the unexpected faults inside
the try block) the worker removes the job's persisted uploaded input file
`filepath` exactly once: the `finally` clause performs the single removal
and no other step touches that file. -/
theorem upload_file_removed_exactly_once (env : WorkerEnv) (job : Job) :
    ((worker_process_job env job).filter (isRemoveUploadOf job.filepath)).length = 1 := by
  unfold worker_process_job
  have h0 : (worker_try_inner env job).filter (isRemoveUploadOf job.filepath) = [] :=
    List.filter_eq_nil_iff.mpr (by
      intro x hx
      simp [worker_try_inner_no_removeUpload env job job.filepath x hx])
  simp [List.filter_append, h0]

@[simp] lemma isInvokePrint_recordEvent (e : HistoryEvent) :
    isInvokePrint (WAction.recordEvent e) = false := rfl

@[simp] lemma isInvokePrint_copyInput : isInvokePrint WAction.copyInput = false := rfl

@[simp] lemma isInvokePrint_invokeConverter (a b : String) :
    isInvokePrint (WAction.invokeConverter a b) = false := rfl

@[simp] lemma isInvokePrint_removeScratchDir :
    isInvokePrint WAction.removeScratchDir = false := rfl

@[simp] lemma isInvokePrint_removeUpload (q : String) :
    isInvokePrint (WAction.removeUpload q) = false := rfl

@[simp] lemma isInvokeConverter_recordEvent (e : HistoryEvent) :
    isInvokeConverter (WAction.recordEvent e) = false := rfl

@[simp] lemma isInvokeConverter_copyInput :
    isInvokeConverter WAction.copyInput = false := rfl

@[simp] lemma isInvokeConverter_invokePrint (q : String) :
    isInvokeConverter (WAction.invokePrint q) = false := rfl

@[simp] lemma isInvokeConverter_removeScratchDir :
    isInvokeConverter WAction.removeScratchDir = false := rfl

@[simp] lemma isInvokeConverter_removeUpload (q : String) :
    isInvokeConverter (WAction.removeUpload q) = false := rfl

lemma worker_print_part_no_converter (env : WorkerEnv) (job : Job) (pdf_path : String) :
    ∀ x ∈ worker_print_part env job pdf_path, isInvokeConverter x = false := by
  unfold worker_print_part
  cases hp : print_pdf pdf_path env.printResult with
  | mk ok msg => cases ok <;> simp

lemma invokePrint_mem_worker_print_part (env : WorkerEnv) (job : Job) (pdf_path : String) :
    WAction.invokePrint pdf_path ∈ worker_print_part env job pdf_path := by
  unfold worker_print_part
  cases hp : print_pdf pdf_path env.printResult with
  | mk ok msg => cases ok <;> simp

/-- Claim C7: For a job whose converter subprocess exits with a non-zero
code (the file not already being a PDF), the worker records exactly the
events `processing` then `conversion_failed`, the terminal event carries
the converter's diagnostic text (`LibreOffice failed: {err or out}`), and
the print-dispatch command `lp` is never invoked. -/
theorem conversion_failure_is_terminal_and_skips_print
    (env : WorkerEnv) (job : Job) (code : Int) (out err : String) (stem ext : String)
    (hcopy : env.copyOk = true)
    (hsplit : rsplit1 '.' job.filename = [stem, ext])
    (hext : str_lower ext ≠ "pdf")
    (hconv : env.convResult = ProcResult.completed code out err)
    (hcode : code ≠ 0) :
    (eventsOf (worker_process_job env job)).map HistoryEvent.status =
      ["processing", "conversion_failed"] ∧
    (eventsOf (worker_process_job env job)).map HistoryEvent.error =
      [none, some ("LibreOffice failed: " ++ pyOr err out)] ∧
    (worker_process_job env job).filter isInvokePrint = [] := by
  have hcv : convert_to_pdf env.convResult env.convPdfExists
      (env.tmpdir ++ "/" ++ secure_filename job.filename) env.tmpdir =
      .error ("LibreOffice failed: " ++ pyOr err out) := by
    rw [hconv]
    simp [convert_to_pdf, run_subprocess, hcode]
  have hbody : worker_try_inner env job =
      [WAction.copyInput,
       WAction.invokeConverter (env.tmpdir ++ "/" ++ secure_filename job.filename) env.tmpdir,
       WAction.recordEvent
         (conversionFailedEvent env.now job ("LibreOffice failed: " ++ pyOr err out))] := by
    unfold worker_try_inner
    rw [hcopy, if_pos rfl, hsplit]
    simp [hext, hcv]
  unfold worker_process_job
  rw [hbody]
  refine ⟨?_, ?_, ?_⟩ <;>
    simp [eventsOf, processingEvent, conversionFailedEvent]

/-- Claim C9: For a job whose filename's lower-cased extension is `pdf`
(and whose input copy succeeds), the worker performs no converter
invocation at all: the copied input file `tmpdir/secure_filename(filename)`
itself is the path handed to print dispatch. -/
theorem pdf_extension_skips_conversion
    (env : WorkerEnv) (job : Job) (stem ext : String)
    (hcopy : env.copyOk = true)
    (hsplit : rsplit1 '.' job.filename = [stem, ext])
    (hext : str_lower ext = "pdf") :
    (worker_process_job env job).filter isInvokeConverter = [] ∧
    WAction.invokePrint (env.tmpdir ++ "/" ++ secure_filename job.filename) ∈
      worker_process_job env job := by
  have hbody : worker_try_inner env job =
      WAction.copyInput ::
        worker_print_part env job (env.tmpdir ++ "/" ++ secure_filename job.filename) := by
    unfold worker_try_inner
    rw [hcopy, if_pos rfl, hsplit]
    simp [hext]
  unfold worker_process_job
  rw [hbody]
  constructor
  · rw [List.filter_eq_nil_iff]
    intro x hx
    simp only [Bool.not_eq_true]
    rcases List.mem_cons.mp hx with rfl | hx1
    · rfl
    rcases List.mem_append.mp hx1 with hx2 | hx3
    · rcases List.mem_cons.mp hx2 with rfl | hx4
      · rfl
      · exact worker_print_part_no_converter env job _ x hx4
    · rcases List.mem_cons.mp hx3 with rfl | hx5
      · rfl
      · rw [List.mem_singleton] at hx5
        subst hx5
        rfl
  · refine List.mem_cons_of_mem _ ?_
    refine List.mem_append_left _ ?_
    exact List.mem_cons_of_mem _ (invokePrint_mem_worker_print_part env job _)

lemma timeout_message_ne_empty (m : String) : ("Timeout expired: " ++ m) ≠ "" := by
  intro h
  have hl := congrArg String.length h
  rw [String.length_append] at hl
  have h1 : "Timeout expired: ".length = 17 := rfl
  have h2 : "".length = 0 := rfl
  rw [h1, h2] at hl
  omega

/-- Timed-out `lp` call: `run_subprocess` maps it to exit code `-1` with the
timeout text, and `print_pdf` reports failure carrying that text
(Python's `err or out` picks the non-empty `err`). -/
lemma print_pdf_timeout (pdf_path m : String) :
    print_pdf pdf_path (ProcResult.timedOut m) = (false, "Timeout expired: " ++ m) := by
  simp [print_pdf, run_subprocess, pyOr, timeout_message_ne_empty m]

/-- Claim C8: For a job whose `lp` print-spooler subprocess exceeds its
deadline (the job having reached the print step: either the file was
already a PDF or conversion succeeded), the worker records exactly
`processing` then `print_failed`, the terminal event's error text is the
timeout indication `Timeout expired: {e}`, and the per-job scratch
directory is still removed. -/
theorem print_timeout_is_terminal_and_scratch_cleaned
    (env : WorkerEnv) (job : Job) (m stem ext : String)
    (hcopy : env.copyOk = true)
    (hsplit : rsplit1 '.' job.filename = [stem, ext])
    (hprint : env.printResult = ProcResult.timedOut m)
    (hreach : str_lower ext = "pdf" ∨
      (str_lower ext ≠ "pdf" ∧
        (∃ out err, env.convResult = ProcResult.completed 0 out err) ∧
        env.convPdfExists = true)) :
    (eventsOf (worker_process_job env job)).map HistoryEvent.status =
      ["processing", "print_failed"] ∧
    (eventsOf (worker_process_job env job)).map HistoryEvent.error =
      [none, some ("Timeout expired: " ++ m)] ∧
    WAction.removeScratchDir ∈ worker_process_job env job := by
  have hpp : ∀ pp, worker_print_part env job pp =
      [WAction.invokePrint pp,
       WAction.recordEvent (printFailedEvent env.now job ("Timeout expired: " ++ m))] := by
    intro pp
    unfold worker_print_part
    rw [hprint, print_pdf_timeout]
  rcases hreach with hpdf | ⟨hnot, ⟨out, err, hconv⟩, hex⟩
  · have hbody : worker_try_inner env job =
        WAction.copyInput ::
          worker_print_part env job (env.tmpdir ++ "/" ++ secure_filename job.filename) := by
      unfold worker_try_inner
      rw [hcopy, if_pos rfl, hsplit]
      simp [hpdf]
    unfold worker_process_job
    rw [hbody, hpp]
    refine ⟨?_, ?_, ?_⟩ <;>
      simp [eventsOf, processingEvent, printFailedEvent]
  · have hcv : convert_to_pdf env.convResult env.convPdfExists
        (env.tmpdir ++ "/" ++ secure_filename job.filename) env.tmpdir =
        .ok (env.tmpdir ++ "/" ++
          splitextRoot (basename (env.tmpdir ++ "/" ++ secure_filename job.filename)) ++ ".pdf") := by
      rw [hconv, hex]
      simp [convert_to_pdf, run_subprocess]
    have hbody : worker_try_inner env job =
        WAction.copyInput ::
          WAction.invokeConverter (env.tmpdir ++ "/" ++ secure_filename job.filename) env.tmpdir ::
          worker_print_part env job (env.tmpdir ++ "/" ++
            splitextRoot (basename (env.tmpdir ++ "/" ++ secure_filename job.filename)) ++ ".pdf") := by
      unfold worker_try_inner
      rw [hcopy, if_pos rfl, hsplit]
      simp [hnot, hcv]
    unfold worker_process_job
    rw [hbody, hpp]
    refine ⟨?_, ?_, ?_⟩ <;>
      simp [eventsOf, processingEvent, printFailedEvent]

/-- The environment of claim C1's failing input: the filesystem copy of the
job's stored input file into the scratch directory raises (for instance the
file was deleted between enqueue and processing), an unexpected fault
inside the worker's try block. -/
def faultEnv : WorkerEnv :=
  { tmpdir := "/var/lib/stark/work/tmp1", copyOk := false,
    convResult := ProcResult.completed 0 "" "", convPdfExists := true,
    printResult := ProcResult.completed 0 "ok" "", now := "2025-01-01T00:00:01Z" }

/-- The job of claim C1's failing input. -/
def faultJob : Job :=
  { id := "job-100", filename := "report.docx",
    filepath := "/var/lib/stark/uploads/100_report.docx",
    client := "10.0.0.2", received_at := "2025-01-01T00:00:00Z" }

/-- Claim C1 (refuted on the code): when an unexpected fault is raised
inside the worker's try block — here the filesystem copy of the input file
failing — the worker records only the `processing` event: the number of
terminal history events (`printed`, `print_failed`, `conversion_failed`)
recorded for the dequeued job is zero, not one; the `except` clause at
server.py line 211 only logs. -/
theorem unexpected_fault_records_no_terminal_event :
    (eventsOf (worker_process_job faultEnv faultJob)).map HistoryEvent.status =
      ["processing"] ∧
    ((eventsOf (worker_process_job faultEnv faultJob)).filter
      (fun e => terminalStatuses.contains e.status)).length = 0 := by
  constructor <;> rfl

/-- Concrete environment for claim C7's witness: the converter exits 1. -/
def convFailEnv : WorkerEnv :=
  { tmpdir := "/var/lib/stark/work/tmpA", copyOk := true,
    convResult := ProcResult.completed 1 "" "soffice: cannot open",
    convPdfExists := true,
    printResult := ProcResult.completed 0 "" "", now := "2025-01-01T01:00:01Z" }

/-- Concrete job for claim C7's witness. -/
def convFailJob : Job :=
  { id := "job-200", filename := "slides.pptx",
    filepath := "/var/lib/stark/uploads/200_slides.pptx",
    client := "192.168.1.9", received_at := "2025-01-01T01:00:00Z" }

/-- Witness for claim C7 at a concrete job whose converter exits 1. -/
theorem conversion_failure_witness :
    (eventsOf (worker_process_job convFailEnv convFailJob)).map HistoryEvent.status =
      ["processing", "conversion_failed"] ∧
    (eventsOf (worker_process_job convFailEnv convFailJob)).map HistoryEvent.error =
      [none, some ("LibreOffice failed: " ++ pyOr "soffice: cannot open" "")] ∧
    (worker_process_job convFailEnv convFailJob).filter isInvokePrint = [] :=
  conversion_failure_is_terminal_and_skips_print convFailEnv convFailJob 1 ""
    "soffice: cannot open" "slides" "pptx" rfl (by decide) (by decide) rfl (by decide)

/-- Concrete environment for claim C8's witness: `lp` hits its deadline. -/
def printTimeoutEnv : WorkerEnv :=
  { tmpdir := "/var/lib/stark/work/tmpB", copyOk := true,
    convResult := ProcResult.completed 0 "" "", convPdfExists := true,
    printResult := ProcResult.timedOut "Command lp timed out after 30 seconds",
    now := "2025-01-01T02:00:01Z" }

/-- Concrete job for claim C8's witness. -/
def printTimeoutJob : Job :=
  { id := "job-300", filename := "scan.pdf",
    filepath := "/var/lib/stark/uploads/300_scan.pdf",
    client := "192.168.1.9", received_at := "2025-01-01T02:00:00Z" }

/-- Witness for claim C8 at a concrete job whose `lp` call times out. -/
theorem print_timeout_witness :
    (eventsOf (worker_process_job printTimeoutEnv printTimeoutJob)).map HistoryEvent.status =
      ["processing", "print_failed"] ∧
    (eventsOf (worker_process_job printTimeoutEnv printTimeoutJob)).map HistoryEvent.error =
      [none, some ("Timeout expired: " ++ "Command lp timed out after 30 seconds")] ∧
    WAction.removeScratchDir ∈ worker_process_job printTimeoutEnv printTimeoutJob :=
  print_timeout_is_terminal_and_scratch_cleaned printTimeoutEnv printTimeoutJob
    "Command lp timed out after 30 seconds" "scan" "pdf"
    rfl (by decide) rfl (Or.inl (by decide))

/-- Concrete environment for claim C9's witness. -/
def pdfPassEnv : WorkerEnv :=
  { tmpdir := "/var/lib/stark/work/tmpC", copyOk := true,
    convResult := ProcResult.completed 0 "" "", convPdfExists := true,
    printResult := ProcResult.completed 0 "request id is 42" "",
    now := "2025-01-01T03:00:01Z" }

/-- Concrete job for claim C9's witness: the file is already a PDF. -/
def pdfPassJob : Job :=
  { id := "job-400", filename := "invoice.PDF",
    filepath := "/var/lib/stark/uploads/400_invoice.PDF",
    client := "10.1.2.3", received_at := "2025-01-01T03:00:00Z" }

/-- Witness for claim C9 at a concrete job already carrying a `pdf`
extension (upper-case, exercising the lower-casing). -/
theorem pdf_extension_witness :
    (worker_process_job pdfPassEnv pdfPassJob).filter isInvokeConverter = [] ∧
    WAction.invokePrint (pdfPassEnv.tmpdir ++ "/" ++ secure_filename pdfPassJob.filename) ∈
      worker_process_job pdfPassEnv pdfPassJob :=
  pdf_extension_skips_conversion pdfPassEnv pdfPassJob "invoice" "PDF"
    rfl (by decide) (by decide)

/-- One upload request as the `upload` handler observes it (server.py lines
237-289), together with its filesystem/clock oracles: whether the multipart
form has a `file` part, the client-supplied filename, the stream size,
whether `f.save` succeeds, the client address, the millisecond timestamp
`int(time.time() * 1000)` read at line 261, and the `received_at` clock
reading. -/
structure UploadRequest where
  hasFilePart : Bool
  filename : String
  size : Nat
  saveOk : Bool
  remote_addr : String
  timestamp : Nat
  received_at : String
deriving Repr, DecidableEq

/-- The server's mutable pipeline state: `job_queue` and `job_history`. -/
structure ServerState where
  job_queue : List Job
  job_history : List HistoryEvent
deriving Repr, DecidableEq

/-- The HTTP response `upload` returns: JSON body and status code. -/
inductive UploadResponse where
  | accepted (job_id : String)
  | rejected (message : String) (code : Nat)
deriving Repr, DecidableEq

/-- Is the response the 200 `queued` acknowledgement? -/
def UploadResponse.isOk : UploadResponse → Bool
  | .accepted _ => true
  | .rejected _ _ => false

/-- `upload` (server.py lines 237-289), faithful to its check order:
missing `file` part (400), empty filename (400), extension not allowed
after sanitization (400), size above `MAX_CONTENT_LENGTH` (413), `f.save`
failure (500); otherwise persist under `{timestamp}_{filename}`, build the
job dict with id `job-{timestamp}`, put it on the queue and only then
record the `queued` history event. -/
def upload (r : UploadRequest) (st : ServerState) : UploadResponse × ServerState :=
  if ¬ r.hasFilePart then (.rejected "No file part" 400, st)
  else if r.filename = "" then (.rejected "No selected file" 400, st)
  else
    if ¬ allowed_file (secure_filename r.filename) then
      (.rejected "Unsupported file type. Allowed: docx, pdf, pptx, xlsx" 400, st)
    else if r.size > MAX_CONTENT_LENGTH then
      (.rejected "File too large (> 50 MB)" 413, st)
    else if ¬ r.saveOk then (.rejected "Failed to save file" 500, st)
    else
      let filename := secure_filename r.filename
      let unique_name := toString r.timestamp ++ "_" ++ filename
      let save_path := UPLOAD_FOLDER ++ "/" ++ unique_name
      let job_id := "job-" ++ toString r.timestamp
      let job : Job :=
        { id := job_id, filename := filename, filepath := save_path,
          client := r.remote_addr, received_at := r.received_at }
      let queued : HistoryEvent :=
        { timestamp := r.received_at, job_id := job_id, filename := filename,
          status := "queued", client := some r.remote_addr }
      (.accepted job_id,
       { job_queue := st.job_queue ++ [job],
         job_history := record_history st.job_history queued })

/-- Claim C10: every rejected upload request (missing `file` part, empty
filename, disallowed extension, oversize file, or a failing save) returns
an error response and leaves the server state untouched: no job is
enqueued and no history event is appended on any rejection path. -/
theorem rejected_upload_leaves_state_unchanged (r : UploadRequest) (st : ServerState) :
    (upload r st).1.isOk = false → (upload r st).2 = st := by
  unfold upload
  repeat' split
  all_goals intro h
  all_goals first
    | rfl
    | simp [UploadResponse.isOk] at h

/-- Concrete rejected request for claim C10's witness: a `.txt` upload. -/
def rejectedReq : UploadRequest :=
  { hasFilePart := true, filename := "notes.txt", size := 4096, saveOk := true,
    remote_addr := "192.168.1.7", timestamp := 1700000000000,
    received_at := "2023-11-14T22:13:20Z" }

/-- Concrete prior state for claim C10's witness. -/
def someState : ServerState :=
  { job_queue := [],
    job_history := [{ timestamp := "t", job_id := "job-1", filename := "a.pdf",
                      status := "queued" }] }

/-- Witness for claim C10: the `.txt` upload is rejected and the state is
returned unchanged. -/
theorem rejected_upload_witness :
    (upload rejectedReq someState).2 = someState :=
  rejected_upload_leaves_state_unchanged rejectedReq someState (by decide)

/-- First accepted request of claim C4's failing input. -/
def sameMsReq1 : UploadRequest :=
  { hasFilePart := true, filename := "a.pdf", size := 10, saveOk := true,
    remote_addr := "192.168.1.5", timestamp := 1700000000000,
    received_at := "2023-11-14T22:13:20Z" }

/-- Second accepted request of claim C4's failing input: a different
upload (different filename, different client) arriving within the same
millisecond, so `int(time.time() * 1000)` reads the same value. -/
def sameMsReq2 : UploadRequest :=
  { hasFilePart := true, filename := "b.pdf", size := 20, saveOk := true,
    remote_addr := "192.168.1.6", timestamp := 1700000000000,
    received_at := "2023-11-14T22:13:20Z" }

/-- Claim C4 (refuted on the code): two distinct accepted upload requests
arriving in the same millisecond are assigned the SAME job id
`job-1700000000000` — the id is `f"job-{int(time.time() * 1000)}"`
(server.py line 271), derived from the timestamp alone, so it is not
unique. The second upload is processed right after the first. -/
theorem same_millisecond_uploads_collide :
    sameMsReq1 ≠ sameMsReq2 ∧
    (upload sameMsReq1 { job_queue := [], job_history := [] }).1 =
      UploadResponse.accepted "job-1700000000000" ∧
    (upload sameMsReq2
        (upload sameMsReq1 { job_queue := [], job_history := [] }).2).1 =
      UploadResponse.accepted "job-1700000000000" := by
  refine ⟨by decide, by decide, by decide⟩

/-- The job of claim C5's interleaving analysis: one accepted upload. -/
def raceJob : Job :=
  { id := "job-500", filename := "memo.pdf",
    filepath := "/var/lib/stark/uploads/500_memo.pdf",
    client := "192.168.1.8", received_at := "2025-01-01T04:00:00Z" }

/-- The `queued` entry the upload handler appends for `raceJob`
(server.py lines 280-286). -/
def raceQueuedEvent : HistoryEvent :=
  { timestamp := "2025-01-01T04:00:00Z", job_id := "job-500",
    filename := "memo.pdf", status := "queued", client := some "192.168.1.8" }

/-- The four atomic steps of the producer/worker race around one job. The
upload handler executes `job_queue.put(job)` (server.py line 279) and THEN
`record_history(queued)` (line 280); the worker executes `job_queue.get()`
(line 152) and then `record_history(processing)` (line 158). -/
inductive RaceAct where
  | put
  | recordQueued
  | get
  | recordProcessing
deriving Repr, DecidableEq

/-- Shared state touched by the race: the queue, the ledger, and the job
the worker holds after its `get`. -/
structure RaceState where
  queue : List Job
  hist : List HistoryEvent
  inFlight : Option Job
deriving Repr, DecidableEq

/-- One atomic step; `none` when the step is not enabled (the worker's
`get` blocks on an empty queue, `recordProcessing` needs a dequeued job). -/
def race_step (st : RaceState) : RaceAct → Option RaceState
  | .put => some { st with queue := job_queue_put st.queue raceJob }
  | .recordQueued => some { st with hist := record_history st.hist raceQueuedEvent }
  | .get =>
    match job_queue_get st.queue with
    | none => none
    | some (j, rest) => some { st with queue := rest, inFlight := some j }
  | .recordProcessing =>
    match st.inFlight with
    | none => none
    | some j =>
      some { st with hist := record_history st.hist (processingEvent "2025-01-01T04:00:01Z" j) }

/-- Run a schedule of atomic steps from a state; `none` when the schedule
picks a disabled step (so it is not a real interleaving). -/
def race_run : List RaceAct → RaceState → Option RaceState
  | [], st => some st
  | a :: rest, st =>
    match race_step st a with
    | none => none
    | some st2 => race_run rest st2

/-- The initial state: empty queue, empty ledger, idle worker. -/
def raceInit : RaceState := { queue := [], hist := [], inFlight := none }

/-- A schedule respects the source's program order when the producer's
`put` precedes its `recordQueued` and the worker's `get` precedes its
`recordProcessing`. -/
def programOrdered (s : List RaceAct) : Bool :=
  decide (s.indexOf RaceAct.put < s.indexOf RaceAct.recordQueued) &&
  decide (s.indexOf RaceAct.get < s.indexOf RaceAct.recordProcessing)

/-- The interleaving refuting claim C5: the producer puts the job, the
worker dequeues it and records `processing`, and only then does the
producer record `queued`. -/
def raceSchedule : List RaceAct :=
  [RaceAct.put, RaceAct.get, RaceAct.recordProcessing, RaceAct.recordQueued]

/-- Claim C5 (refuted on the code): `upload` enqueues the job BEFORE
appending its `queued` event, so there is a valid interleaving — respecting
each thread's program order and every step's enabledness — whose final
ledger holds `processing` before `queued` for the job, the opposite of the
claimed order. -/
theorem processing_can_precede_queued :
    programOrdered raceSchedule = true ∧
    (race_run raceSchedule raceInit).map (fun st => st.hist.map HistoryEvent.status) =
      some ["processing", "queued"] := by
  constructor <;> rfl

/-- Does a completed run of the schedule leave the ledger in the claimed
order `queued` before `processing`? (Vacuously true for invalid schedules.) -/
def raceClaimHolds (s : List RaceAct) : Bool :=
  match race_run s raceInit with
  | none => true
  | some st => st.hist.map HistoryEvent.status == ["queued", "processing"]

/-- All ways to insert `a` into a list (helper for enumerating the
interleavings of the four race steps). -/
def insertEverywhere (a : RaceAct) : List RaceAct → List (List RaceAct)
  | [] => [[a]]
  | b :: bs => (a :: b :: bs) :: (insertEverywhere a bs).map (b :: ·)

/-- All orderings of a list of race steps (every interleaving of the two
threads' steps is one of these). -/
def allOrderings : List RaceAct → List (List RaceAct)
  | [] => [[]]
  | a :: rest => (allOrderings rest).flatMap (insertEverywhere a)

/-- Claim C5 as amended: in every interleaving of the four steps that
respects program order AND in which the producer's `queued` append happens
before the worker's dequeue, the ledger records `queued` before
`processing`. (Without that extra condition the order can invert, as
`processing_can_precede_queued` shows.) -/
theorem queued_precedes_processing_when_append_precedes_get :
    ∀ s ∈ allOrderings [RaceAct.put, RaceAct.recordQueued, RaceAct.get,
           RaceAct.recordProcessing],
      programOrdered s = true →
      s.indexOf RaceAct.recordQueued < s.indexOf RaceAct.get →
      raceClaimHolds s = true := by
  decide

/-- Witness for the amended claim C5 at the sequential schedule. -/
theorem queued_precedes_processing_witness :
    raceClaimHolds
      [RaceAct.put, RaceAct.recordQueued, RaceAct.get, RaceAct.recordProcessing] = true :=
  queued_precedes_processing_when_append_precedes_get
    [RaceAct.put, RaceAct.recordQueued, RaceAct.get, RaceAct.recordProcessing]
    (by decide) (by decide) (by decide)

end Stark
